import Mathlib

/-!
# Neon Duel — verification of the simulation core

Shallow embedding of the deterministic simulation core of the `neon-duel`
arena fighter.  The repository holds two iterations of the game:

* the final, modular shape (`src/player.rs`, `src/combat.rs`,
  `src/game_state.rs`, `src/stage.rs`), embedded in namespace `NeonDuel`;
* an earlier single-file iteration (`src/lib.rs`) with its own `update`
  entry point, embedded in namespace `Legacy`.

Modelling conventions:

* `f32` values are modelled exactly over `ℚ`; decimal literals of the Rust
  source are taken at face value (e.g. `0.8`, `1.8`, `-12.0`).
* `u32`/`usize` counters and timers are modelled as `ℕ`; player indices,
  which the source always keeps in `0..4`, are `Fin 4`.
* the distance test `libm::sqrtf(dx*dx + dy*dy) < MELEE_RANGE` is modelled
  by comparing squares, `dx^2 + dy^2 < MELEE_RANGE^2`, which is the same
  predicate over exact arithmetic.
* all cosmetic calls (audio, particles, screen shake, hit freeze, impact
  flash, camera zoom, effect lights, transitions) are stubbed to no-ops:
  none of them feeds back into the fields modelled here.
-/

namespace NeonDuel

/-! ## Constants (player.rs / combat.rs / game_state.rs) -/

def PLAYER_WIDTH : ℚ := 0.8
def PLAYER_HEIGHT : ℚ := 1.2
def MELEE_RANGE : ℚ := 1.8
def MAX_AMMO : ℕ := 3
def RESPAWN_DELAY : ℕ := 90
def BULLET_SPEED : ℚ := 0.4
def BULLET_LIFETIME : ℕ := 120
def DEATH_Y : ℚ := -8
/-- The exact `f32` value of `core::f32::consts::FRAC_1_SQRT_2`. -/
def INV_SQRT2 : ℚ := 11863283 / 16777216
/-- The exact `f32` value of the literal `1.0e12_f32` used as the initial
best-distance in the nearest-player searches. -/
def BIG_DIST : ℚ := 999999995904

/-! ## Data model (final modular shape) -/

/-- `GamePhase` from game_state.rs. -/
inductive GamePhase where
  | Title
  | Lobby
  | Countdown
  | Playing
  | Paused
  | FinalKo
  | RoundEnd
  | MatchEnd
deriving DecidableEq

/-- The fields of `Player` (player.rs) read or written by the embedded
kill/combat/bounds functions.  Purely cosmetic fields (flash timers,
squash/stretch, motion-trail ring buffer) and fields untouched by those
functions are omitted from the embedding. -/
structure MPlayer where
  x : ℚ
  y : ℚ
  facing_right : Bool
  active : Bool
  dead : Bool
  melee_timer : ℕ
  respawn_timer : ℕ
  invuln_timer : ℕ
  kills : ℕ
deriving DecidableEq

/-- `Bullet` from combat.rs.  The owner is always a valid player index. -/
structure MBullet where
  x : ℚ
  y : ℚ
  vx : ℚ
  vy : ℚ
  owner : Fin 4
  lifetime : ℕ
  active : Bool
deriving DecidableEq

/-- `Platform` from stage.rs. -/
structure MPlatform where
  x : ℚ
  y : ℚ
  width : ℚ
  height : ℚ
  active : Bool
  moving : Bool
  move_speed : ℚ
  move_min : ℚ
  move_max : ℚ
deriving DecidableEq

/-- The fields of `GameState` (game_state.rs) read or written by the
embedded functions. -/
structure MGame where
  phase : GamePhase
  round_end_timer : ℕ
  final_ko_timer : ℕ
  winner_idx : ℕ
  overtime : Bool
  arena_left : ℚ
  arena_right : ℚ
deriving DecidableEq

/-- The lobby-configurable rule read by kill resolution (`CONFIG.kills_to_win`). -/
structure MConfig where
  kills_to_win : ℕ
deriving DecidableEq

/-- The mutable simulation state threaded through combat: the player array
and the game-state singleton (plus the config read by kill resolution). -/
structure CState where
  players : Fin 4 → MPlayer
  game : MGame
  cfg : MConfig

/-- The fixed iteration order `0..MAX_PLAYERS` over the player array. -/
def allFour : List (Fin 4) := [0, 1, 2, 3]

/-! ## Geometry helpers (combat.rs / player.rs) -/

/-- `point_in_aabb` from combat.rs. -/
def pointInAabb (px py x y w h : ℚ) : Prop :=
  x ≤ px ∧ px ≤ x + w ∧ y ≤ py ∧ py ≤ y + h

instance instDecPointInAabb (px py x y w h : ℚ) : Decidable (pointInAabb px py x y w h) := by
  unfold pointInAabb; infer_instance

/-- `aabb_overlap` from player.rs (the two 4-tuples are passed unpacked). -/
def aabbOverlap (x1 y1 w1 h1 x2 y2 w2 h2 : ℚ) : Prop :=
  x1 < x2 + w2 ∧ x2 < x1 + w1 ∧ y1 < y2 + h2 ∧ y2 < y1 + h1

instance instDecAabbOverlap (x1 y1 w1 h1 x2 y2 w2 h2 : ℚ) :
    Decidable (aabbOverlap x1 y1 w1 h1 x2 y2 w2 h2) := by
  unfold aabbOverlap; infer_instance

/-! ## Kill resolution (player.rs, `kill_player`) -/

/-- `kill_player` from player.rs.  Audio, shake, particles, hit freeze and
the fade-out transition are cosmetic and stubbed.  The source indexes
`PLAYERS[killer_owner as usize]`; every call site passes an index `< 4`,
modelled by `killer : Fin 4`. -/
def killPlayer (s : CState) (victim : Fin 4) (killer : Fin 4) : CState :=
  let v := s.players victim
  if v.dead = true then s
  else
    let v' : MPlayer := { v with dead := true, respawn_timer := RESPAWN_DELAY, invuln_timer := 0 }
    let s1 : CState := { s with players := Function.update s.players victim v' }
    let s2 : CState :=
      if killer ≠ victim then
        let kp := s1.players killer
        let kp' := { kp with kills := kp.kills + 1 }
        let s2a : CState := { s1 with players := Function.update s1.players killer kp' }
        let ktw := max s.cfg.kills_to_win 1
        if ktw ≤ kp'.kills then
          { s2a with game := { s2a.game with
              winner_idx := min (killer : ℕ) 3,
              final_ko_timer := 75,
              round_end_timer := 0,
              phase := GamePhase.FinalKo } }
        else s2a
      else s1
    if s2.game.phase = GamePhase.Playing then
      { s2 with game := { s2.game with round_end_timer := 30 } }
    else s2

/-! ## Bullets (combat.rs) -/

/-- `normalize_aim` from combat.rs. -/
def normalizeAim (x y : ℚ) (facing_right : Bool) : ℚ × ℚ :=
  let ax : ℚ := if (0.3 : ℚ) < x then 1 else if x < -0.3 then -1 else 0
  let ay : ℚ := if (0.3 : ℚ) < y then 1 else if y < -0.3 then -1 else 0
  if ax = 0 ∧ ay = 0 then (if facing_right then 1 else -1, 0)
  else if ax ≠ 0 ∧ ay ≠ 0 then (ax * INV_SQRT2, ay * INV_SQRT2)
  else (ax, ay)

/-- The bullet written into the claimed slot by `spawn_bullet` (combat.rs);
the muzzle-flash effect light is cosmetic and stubbed. -/
def mkBullet (p : MPlayer) (idx : Fin 4) (aimX aimY : ℚ) : MBullet :=
  let d := normalizeAim aimX aimY p.facing_right
  { x := p.x + PLAYER_WIDTH / 2
    y := p.y + PLAYER_HEIGHT / 2
    vx := d.1 * BULLET_SPEED
    vy := d.2 * BULLET_SPEED
    owner := idx
    lifetime := BULLET_LIFETIME
    active := true }

/-- `spawn_bullet` from combat.rs: claim the first inactive slot of the
pool; silently a no-op when every slot is active. -/
def spawnBullet (p : MPlayer) (idx : Fin 4) (aimX aimY : ℚ) : List MBullet → List MBullet
  | [] => []
  | b :: rest =>
      if b.active = true then b :: spawnBullet p idx aimX aimY rest
      else mkBullet p idx aimX aimY :: rest

/-- Center of the deflection hitbox used in the bullet/player scan
(combat.rs, `update_bullets`). -/
def meleeDeflectPos (p : MPlayer) : ℚ × ℚ :=
  (p.x + PLAYER_WIDTH / 2 + (if p.facing_right then MELEE_RANGE / 2 else -(MELEE_RANGE / 2)),
   p.y + PLAYER_HEIGHT / 2)

/-- The deflection test of `update_bullets`: melee timer running and the
bullet within `MELEE_RANGE` of the melee hitbox center.  The source
compares `sqrtf(dx*dx+dy*dy) < MELEE_RANGE`; over exact arithmetic this is
the comparison of squares. -/
def deflectCond (p : MPlayer) (b : MBullet) : Prop :=
  0 < p.melee_timer ∧
    (b.x - (meleeDeflectPos p).1) ^ 2 + (b.y - (meleeDeflectPos p).2) ^ 2 < MELEE_RANGE ^ 2

instance instDecDeflectCond (p : MPlayer) (b : MBullet) : Decidable (deflectCond p b) := by
  unfold deflectCond; infer_instance

/-- The deflection action of `update_bullets`: reverse direction, reassign
the owner, reset the lifetime (deflect sound/shake/freeze/light stubbed). -/
def deflect (b : MBullet) (i : Fin 4) : MBullet :=
  { b with vx := -b.vx, vy := -b.vy, owner := i, lifetime := BULLET_LIFETIME }

/-- The player-collision scan of `update_bullets` (combat.rs): players in
increasing index order; skip inactive/dead players and the owner; deflect
and continue on an armed melee in range; otherwise on an AABB hit kill the
player (bullet owner as killer), deactivate the bullet and break. -/
def scanHit : CState → MBullet → List (Fin 4) → CState × MBullet
  | s, b, [] => (s, b)
  | s, b, i :: rest =>
      let p := s.players i
      if p.active = false ∨ p.dead = true then scanHit s b rest
      else if i = b.owner then scanHit s b rest
      else if deflectCond p b then scanHit s (deflect b i) rest
      else if pointInAabb b.x b.y p.x p.y PLAYER_WIDTH PLAYER_HEIGHT then
        (killPlayer s i b.owner, { b with active := false })
      else scanHit s b rest

/-- The out-of-bounds test of `update_bullets`. -/
def bulletOutOfBounds (b : MBullet) : Prop :=
  b.x < -12 ∨ 12 < b.x ∨ b.y < -10 ∨ 10 < b.y

instance instDecBulletOutOfBounds (b : MBullet) : Decidable (bulletOutOfBounds b) := by
  unfold bulletOutOfBounds; infer_instance

/-- The platform-collision loop of `update_bullets`: the bullet stops on
the first active platform containing it (deactivation is the only effect,
so first-match and any-match coincide). -/
def hitsPlatform (pl : List MPlatform) (b : MBullet) : Prop :=
  ∃ q ∈ pl, q.active = true ∧ pointInAabb b.x b.y q.x q.y q.width q.height

instance instDecHitsPlatform (pl : List MPlatform) (b : MBullet) : Decidable (hitsPlatform pl b) := by
  unfold hitsPlatform; infer_instance

/-- The per-bullet body of `update_bullets` (combat.rs): integrate, spawn a
cosmetic trail (stubbed), decrement lifetime and deactivate at 0, clip to
the bounds rectangle, stop on platforms, then run the player scan. -/
def updateBullet (s : CState) (pl : List MPlatform) (b : MBullet) : CState × MBullet :=
  if b.active = false then (s, b)
  else
    let b1 := { b with x := b.x + b.vx, y := b.y + b.vy }
    let b2 := { b1 with lifetime := b1.lifetime - 1 }
    if b2.lifetime = 0 then (s, { b2 with active := false })
    else if bulletOutOfBounds b2 then (s, { b2 with active := false })
    else if hitsPlatform pl b2 then (s, { b2 with active := false })
    else scanHit s b2 allFour

/-- `update_bullets` (combat.rs): process the pool slots in order; each
bullet sees the player/game state left by the previous ones. -/
def updateBullets (s : CState) (pl : List MPlatform) : List MBullet → CState × List MBullet
  | [] => (s, [])
  | b :: rest =>
      let sb := updateBullet s pl b
      let srest := updateBullets sb.1 pl rest
      (srest.1, sb.2 :: srest.2)

/-! ## Melee hits (combat.rs, `update_melee_hits`) -/

/-- The inner target loop of `update_melee_hits`: any overlap with the
attacker's hitbox kills the target (no break — melee can hit several
targets in one tick). -/
def meleeTargets (ai : Fin 4) (mx my mw mh : ℚ) : CState → List (Fin 4) → CState
  | s, [] => s
  | s, t :: rest =>
      if t = ai then meleeTargets ai mx my mw mh s rest
      else
        let tp := s.players t
        if tp.active = false ∨ tp.dead = true then meleeTargets ai mx my mw mh s rest
        else if aabbOverlap mx my mw mh tp.x tp.y PLAYER_WIDTH PLAYER_HEIGHT then
          meleeTargets ai mx my mw mh (killPlayer s t ai) rest
        else meleeTargets ai mx my mw mh s rest

/-- `update_melee_hits` (combat.rs): for every attacker with an active
(non-windup) melee timer, a rectangular hitbox extending `MELEE_RANGE` in
the facing direction at full player height is tested against every other
active, non-dead player (cosmetic calls stubbed). -/
def updateMeleeHits : CState → List (Fin 4) → CState
  | s, [] => s
  | s, a :: rest =>
      let ap := s.players a
      if ap.active = false ∨ ap.dead = true ∨ ap.melee_timer = 0 then updateMeleeHits s rest
      else
        let mx := if ap.facing_right then ap.x + PLAYER_WIDTH else ap.x - MELEE_RANGE
        updateMeleeHits (meleeTargets a mx ap.y MELEE_RANGE PLAYER_HEIGHT s allFour) rest

/-! ## Overtime walls and fall death (player.rs, tail of `update_player`) -/

/-- Player center as computed by `overtime_killer_for`. -/
def playerCenter (p : MPlayer) : ℚ × ℚ :=
  (p.x + PLAYER_WIDTH * 0.5, p.y + PLAYER_HEIGHT * 0.5)

/-- Squared center distance between two players (player.rs). -/
def centerDistSq (p q : MPlayer) : ℚ :=
  ((playerCenter q).1 - (playerCenter p).1) ^ 2 + ((playerCenter q).2 - (playerCenter p).2) ^ 2

/-- The nearest-living-opponent fold of `overtime_killer_for` (player.rs):
running best index and best squared distance, initialised to the victim
itself and `1.0e12`. -/
def otkAux (s : CState) (v : Fin 4) : List (Fin 4) → Fin 4 → ℚ → Fin 4 × ℚ
  | [], best, bestD => (best, bestD)
  | i :: rest, best, bestD =>
      if i = v ∨ (s.players i).active = false ∨ (s.players i).dead = true then
        otkAux s v rest best bestD
      else
        let d := centerDistSq (s.players v) (s.players i)
        if d < bestD then otkAux s v rest i d else otkAux s v rest best bestD

/-- `overtime_killer_for` from player.rs: index of the living opponent
nearest to the victim (the victim itself when no opponent is close). -/
def overtimeKillerFor (s : CState) (v : Fin 4) : Fin 4 :=
  (otkAux s v allFour v BIG_DIST).1

/-- The `hit_wall` test of `update_player` (player.rs, level-bounds clamp):
the player's x lies outside the (possibly overtime-shrunk) arena. -/
def wallPressed (s : CState) (i : Fin 4) : Prop :=
  (s.players i).x < s.game.arena_left ∨ s.game.arena_right - PLAYER_WIDTH < (s.players i).x

instance instDecWallPressed (s : CState) (i : Fin 4) : Decidable (wallPressed s i) := by
  unfold wallPressed; infer_instance

/-- The arena-bounds clamp of `update_player` (player.rs): x pinned to
`[arena_left, arena_right - PLAYER_WIDTH]`. -/
def clampPlayerX (s : CState) (i : Fin 4) : CState :=
  let p := s.players i
  let left := s.game.arena_left
  let right := s.game.arena_right - PLAYER_WIDTH
  let p' : MPlayer := { p with x := if p.x < left then left else if right < p.x then right else p.x }
  { s with players := Function.update s.players i p' }

/-- The tail of `update_player` (player.rs lines 874–897): clamp to the
arena bounds; during overtime a pressed wall is lethal and the point goes
to the nearest living opponent (then return); otherwise falling below
`DEATH_Y` is a self-kill. -/
def boundsStep (s : CState) (i : Fin 4) : CState :=
  let s1 := clampPlayerX s i
  if s.game.overtime = true ∧ wallPressed s i then
    killPlayer s1 i (overtimeKillerFor s1 i)
  else if (s1.players i).y < DEATH_Y then killPlayer s1 i i
  else s1

/-! ## Stage tables (stage.rs) -/

/-- The platform table together with the pit globals (`HAS_PIT`, `PIT_Y`)
written by the stage setup functions. -/
structure StageData where
  platforms : List MPlatform
  has_pit : Bool
  pit_y : ℚ
deriving DecidableEq

/-- A static (non-moving) platform literal of the stage tables. -/
def staticPlatform (x y w h : ℚ) : MPlatform :=
  { x := x, y := y, width := w, height := h, active := true,
    moving := false, move_speed := 0, move_min := 0, move_max := 0 }

/-- The `for p in &mut PLATFORMS { p.active = false; }` loop: only the
active flags are cleared, the remaining fields of unused slots are kept. -/
def deactivateAll (l : List MPlatform) : List MPlatform :=
  l.map fun p => { p with active := false }

/-- Writing the leading slots of the (cleared) platform table. -/
def writeSlots (old fresh : List MPlatform) : List MPlatform :=
  fresh ++ old.drop fresh.length

/-- `setup_stage_grid_arena` from stage.rs. -/
def setupStageGridArena (old : StageData) : StageData :=
  { old with
    has_pit := false
    platforms := writeSlots (deactivateAll old.platforms)
      [staticPlatform (-10) (-2) 20 0.5,
       staticPlatform (-7) 1 4 0.4,
       staticPlatform 3 1 4 0.4,
       staticPlatform (-3) 4 6 0.4] }

/-- `setup_stage_scatter_field` from stage.rs. -/
def setupStageScatterField (old : StageData) : StageData :=
  { old with
    has_pit := true
    pit_y := -5
    platforms := writeSlots (deactivateAll old.platforms)
      [staticPlatform (-9) 0 4 0.4,
       staticPlatform (-3) (-1) 3 0.4,
       staticPlatform 2 0.5 3.5 0.4,
       staticPlatform 6 (-0.5) 3 0.4,
       staticPlatform (-6) 3 3 0.4,
       staticPlatform 0 4 4 0.4,
       staticPlatform 5 2.5 3 0.4] }

/-- `setup_stage_ring_void` from stage.rs (slot 2 is the moving platform). -/
def setupStageRingVoid (old : StageData) : StageData :=
  { old with
    has_pit := true
    pit_y := -6
    platforms := writeSlots (deactivateAll old.platforms)
      [staticPlatform (-8) 0 3 0.4,
       staticPlatform 5 0 3 0.4,
       { x := -1.5, y := 1, width := 3, height := 0.4, active := true,
         moving := true, move_speed := 0.02, move_min := -4, move_max := 4 },
       staticPlatform (-7) 3.5 2.5 0.4,
       staticPlatform 4.5 3.5 2.5 0.4,
       staticPlatform (-2) 5 4 0.4] }

/-- `setup_current_stage` from stage.rs: match on `GAME_STATE.current_stage`
(passed here as an argument) with grid arena as the default arm. -/
def setupCurrentStage (current_stage : ℕ) (old : StageData) : StageData :=
  match current_stage with
  | 0 => setupStageGridArena old
  | 1 => setupStageScatterField old
  | 2 => setupStageRingVoid old
  | _ => setupStageGridArena old

/-- `SPAWN_POINTS` from stage.rs: flat `[x0, y0, x1, y1, x2, y2, x3, y3]`
per stage.  The array has exactly 3 rows; every caller clamps the row
index to `0..2` first (an out-of-range row would be a Rust index panic and
is unreachable). -/
def SPAWN_POINTS : ℕ → List ℚ
  | 0 => [-5, 1.5, 5, 1.5, -2, 4.5, 2, 4.5]
  | 1 => [-7, 0.5, 3.5, 1, -4.5, 3.5, 1.5, 4.5]
  | 2 => [-6.5, 0.5, 6, 0.5, -5.5, 4, 5.5, 4]
  | _ => []

/-- `get_spawn_position` from stage.rs: the stage index is clamped with
`.min(2)` and the player index with `.min(3)`. -/
def getSpawnPosition (current_stage : ℕ) (player_idx : ℕ) : ℚ × ℚ :=
  let stage := min current_stage 2
  let idx := min player_idx 3 * 2
  ((SPAWN_POINTS stage).getD idx 0, (SPAWN_POINTS stage).getD (idx + 1) 0)

/-! ## Overtime arena shrink (spec-modelled) -/

/-- The arena width floor during overtime; spec §8 pins it at `2.5`. -/
def MIN_ARENA_WIDTH : ℚ := 2.5

/-- Modelled from the spec: the per-tick overtime arena shrink is part of
the final version's tick driver, which is not under `src/` —
`game_state.rs` only declares the `overtime` / `arena_left` / `arena_right`
fields (lines 81–83) and `player.rs` / `render.rs` read them.  Spec §4.4:
"each tick while in overtime, shrink both bounds symmetrically by a fixed
rate until a minimum width floor is reached, then hold."  The fixed
per-tick rate is a positive parameter `rate`. -/
def shrinkArena (rate : ℚ) (g : MGame) : MGame :=
  if g.overtime = true then
    let width := g.arena_right - g.arena_left
    if MIN_ARENA_WIDTH < width then
      let step := min rate ((width - MIN_ARENA_WIDTH) / 2)
      { g with arena_left := g.arena_left + step, arena_right := g.arena_right - step }
    else g
  else g

end NeonDuel

namespace Legacy

open NeonDuel (MPlatform StageData staticPlatform writeSlots deactivateAll setupCurrentStage
  aabbOverlap pointInAabb allFour PLAYER_WIDTH PLAYER_HEIGHT MELEE_RANGE BULLET_SPEED
  BULLET_LIFETIME RESPAWN_DELAY MAX_AMMO DEATH_Y)

/-!
## The single-file iteration (`src/lib.rs`)

Embedding of the `update` entry point of `src/lib.rs` (the earlier,
self-contained iteration) as a pure function of the simulation state, the
per-player host inputs of the tick and the pseudo-random stream.  The host
services consumed by `update` — `button_pressed` / `button_held` /
`left_stick_x` / `left_stick_y` / `player_count` / `random_f32_range` —
are modelled as explicit read-only inputs; `lib.rs`'s `update` performs no
audio/particle/render calls.  The platform tables of `lib.rs` duplicate
those of `stage.rs` verbatim, so the stage-setup embedding is shared.
-/

/-- Constants of lib.rs (identical values to the modular files). -/
def GRAVITY : ℚ := 0.025
def JUMP_FORCE : ℚ := 0.5
def MOVE_SPEED : ℚ := 0.15
def FRICTION : ℚ := 0.85
def AIR_FRICTION : ℚ := 0.95
def MELEE_DURATION : ℕ := 12
def KILLS_TO_WIN : ℕ := 5
/-- lib.rs's `normalize_aim` uses the literal `0.7071` for `1/√2`. -/
def INV_SQRT2_OLD : ℚ := 0.7071

/-- `Player` from lib.rs (the full field list of that iteration). -/
structure LPlayer where
  x : ℚ
  y : ℚ
  vx : ℚ
  vy : ℚ
  on_ground : Bool
  facing_right : Bool
  active : Bool
  ammo : ℕ
  melee_timer : ℕ
  dead : Bool
  respawn_timer : ℕ
  kills : ℕ
deriving DecidableEq

/-- `Bullet` from lib.rs. -/
structure LBullet where
  x : ℚ
  y : ℚ
  vx : ℚ
  vy : ℚ
  owner : Fin 4
  lifetime : ℕ
  active : Bool
deriving DecidableEq

/-- `GamePhase` from lib.rs. -/
inductive LPhase where
  | Title
  | Countdown
  | Playing
  | RoundEnd
  | MatchEnd
deriving DecidableEq

/-- `GameState` from lib.rs. -/
structure LGame where
  phase : LPhase
  countdown : ℕ
  round_end_timer : ℕ
  current_stage : ℕ
deriving DecidableEq

/-- The complete mutable simulation state of lib.rs: the player array, the
bullet pool, the platform table (with the `HAS_PIT`/`PIT_Y` globals), the
game-state singleton and the `TICK` counter. -/
structure LSim where
  players : Fin 4 → LPlayer
  bullets : List LBullet
  stage : StageData
  game : LGame
  tick : ℕ

/-- One pad's host-input sample for a tick: analog stick axes, held
buttons and pressed (edge) buttons read by `update`. -/
structure LPad where
  stickX : ℚ
  stickY : ℚ
  heldUp : Bool
  heldDown : Bool
  heldLeft : Bool
  heldRight : Bool
  heldA : Bool
  pressedA : Bool
  pressedB : Bool
  pressedX : Bool
  pressedStart : Bool

/-- The ordered per-player input samples of one tick, plus `player_count()`. -/
structure LInput where
  pads : ℕ → LPad
  playerCount : ℕ

/-- `clamp` from lib.rs. -/
def clampQ (v lo hi : ℚ) : ℚ := if v < lo then lo else if hi < v then hi else v

/-- `abs` from lib.rs. -/
def absQ (v : ℚ) : ℚ := if v < 0 then -v else v

/-- `check_wall_collision` from lib.rs. -/
def checkWallCollision (pl : List MPlatform) (x yMin yMax : ℚ) : Prop :=
  ∃ q ∈ pl, q.active = true ∧ q.x ≤ x ∧ x ≤ q.x + q.width ∧ q.y ≤ yMax ∧ yMin ≤ q.y + q.height

instance instDecCheckWall (pl : List MPlatform) (x yMin yMax : ℚ) :
    Decidable (checkWallCollision pl x yMin yMax) := by
  unfold checkWallCollision; infer_instance

/-- `kill_player` from lib.rs: mark dead, start the respawn timer, award
the kill unless self-kill, move to `MatchEnd` at `KILLS_TO_WIN`, and start
the brief round-end pause while still `Playing`. -/
def lKillPlayer (s : LSim) (victim : Fin 4) (killer : Fin 4) : LSim :=
  let v := s.players victim
  if v.dead = true then s
  else
    let v' : LPlayer := { v with dead := true, respawn_timer := RESPAWN_DELAY }
    let s1 : LSim := { s with players := Function.update s.players victim v' }
    let s2 : LSim :=
      if killer ≠ victim then
        let kp := s1.players killer
        let kp' := { kp with kills := kp.kills + 1 }
        let s2a : LSim := { s1 with players := Function.update s1.players killer kp' }
        if KILLS_TO_WIN ≤ kp'.kills then
          { s2a with game := { s2a.game with phase := LPhase.MatchEnd } }
        else s2a
      else s1
    if s2.game.phase = LPhase.Playing then
      { s2 with game := { s2.game with round_end_timer := 30 } }
    else s2

/-- `normalize_aim` from lib.rs. -/
def lNormalizeAim (x y : ℚ) (facing_right : Bool) : ℚ × ℚ :=
  let ax : ℚ := if (0.3 : ℚ) < x then 1 else if x < -0.3 then -1 else 0
  let ay : ℚ := if (0.3 : ℚ) < y then 1 else if y < -0.3 then -1 else 0
  if ax = 0 ∧ ay = 0 then (if facing_right then 1 else -1, 0)
  else if ax ≠ 0 ∧ ay ≠ 0 then (ax * INV_SQRT2_OLD, ay * INV_SQRT2_OLD)
  else (ax, ay)

/-- The bullet written by lib.rs's `spawn_bullet`. -/
def lMkBullet (p : LPlayer) (idx : Fin 4) (aimX aimY : ℚ) : LBullet :=
  let d := lNormalizeAim aimX aimY p.facing_right
  { x := p.x + PLAYER_WIDTH / 2
    y := p.y + PLAYER_HEIGHT / 2
    vx := d.1 * BULLET_SPEED
    vy := d.2 * BULLET_SPEED
    owner := idx
    lifetime := BULLET_LIFETIME
    active := true }

/-- `spawn_bullet` from lib.rs: claim the first inactive pool slot. -/
def lSpawnBullet (p : LPlayer) (idx : Fin 4) (aimX aimY : ℚ) : List LBullet → List LBullet
  | [] => []
  | b :: rest =>
      if b.active = true then b :: lSpawnBullet p idx aimX aimY rest
      else lMkBullet p idx aimX aimY :: rest

/-- The deflection test of lib.rs's `update_bullets` (squares compared, as
in the modular embedding). -/
def lDeflectCond (p : LPlayer) (b : LBullet) : Prop :=
  0 < p.melee_timer ∧
    (b.x - (p.x + PLAYER_WIDTH / 2 +
        (if p.facing_right then MELEE_RANGE / 2 else -(MELEE_RANGE / 2)))) ^ 2 +
      (b.y - (p.y + PLAYER_HEIGHT / 2)) ^ 2 < MELEE_RANGE ^ 2

instance instDecLDeflectCond (p : LPlayer) (b : LBullet) : Decidable (lDeflectCond p b) := by
  unfold lDeflectCond; infer_instance

/-- The player-collision scan of lib.rs's `update_bullets`. -/
def lScanHit : LSim → LBullet → List (Fin 4) → LSim × LBullet
  | s, b, [] => (s, b)
  | s, b, i :: rest =>
      let p := s.players i
      if p.active = false ∨ p.dead = true then lScanHit s b rest
      else if i = b.owner then lScanHit s b rest
      else if lDeflectCond p b then
        lScanHit s { b with vx := -b.vx, vy := -b.vy, owner := i, lifetime := BULLET_LIFETIME } rest
      else if pointInAabb b.x b.y p.x p.y PLAYER_WIDTH PLAYER_HEIGHT then
        (lKillPlayer s i b.owner, { b with active := false })
      else lScanHit s b rest

/-- The per-bullet body of lib.rs's `update_bullets`. -/
def lUpdateBullet (s : LSim) (b : LBullet) : LSim × LBullet :=
  if b.active = false then (s, b)
  else
    let b1 := { b with x := b.x + b.vx, y := b.y + b.vy }
    let b2 := { b1 with lifetime := b1.lifetime - 1 }
    if b2.lifetime = 0 then (s, { b2 with active := false })
    else if b2.x < -12 ∨ 12 < b2.x ∨ b2.y < -10 ∨ 10 < b2.y then (s, { b2 with active := false })
    else if ∃ q ∈ s.stage.platforms, q.active = true ∧
        pointInAabb b2.x b2.y q.x q.y q.width q.height then (s, { b2 with active := false })
    else lScanHit s b2 allFour

/-- `update_bullets` from lib.rs: pool slots in order, each seeing the
state left by the previous ones. -/
def lUpdateBullets (s : LSim) : List LBullet → LSim × List LBullet
  | [] => (s, [])
  | b :: rest =>
      let sb := lUpdateBullet s b
      let srest := lUpdateBullets sb.1 rest
      (srest.1, sb.2 :: srest.2)

/-- Inner target loop of lib.rs's `update_melee_hits`. -/
def lMeleeTargets (ai : Fin 4) (mx my mw mh : ℚ) : LSim → List (Fin 4) → LSim
  | s, [] => s
  | s, t :: rest =>
      if t = ai then lMeleeTargets ai mx my mw mh s rest
      else
        let tp := s.players t
        if tp.active = false ∨ tp.dead = true then lMeleeTargets ai mx my mw mh s rest
        else if aabbOverlap mx my mw mh tp.x tp.y PLAYER_WIDTH PLAYER_HEIGHT then
          lMeleeTargets ai mx my mw mh (lKillPlayer s t ai) rest
        else lMeleeTargets ai mx my mw mh s rest

/-- `update_melee_hits` from lib.rs. -/
def lUpdateMelee : LSim → List (Fin 4) → LSim
  | s, [] => s
  | s, a :: rest =>
      let ap := s.players a
      if ap.active = false ∨ ap.dead = true ∨ ap.melee_timer = 0 then lUpdateMelee s rest
      else
        let mx := if ap.facing_right then ap.x + PLAYER_WIDTH else ap.x - MELEE_RANGE
        lUpdateMelee (lMeleeTargets a mx ap.y MELEE_RANGE PLAYER_HEIGHT s allFour) rest

/-- `update_platforms` from lib.rs: advance moving platforms and ping-pong
at the configured bounds. -/
def lUpdatePlatform (q : MPlatform) : MPlatform :=
  if q.active = false ∨ q.moving = false then q
  else
    let q1 := { q with x := q.x + q.move_speed }
    if q1.x ≤ q1.move_min ∨ q1.move_max + q1.width ≤ q1.x + q1.width then
      { q1 with move_speed := -q1.move_speed }
    else q1

/-- The running landing state of the platform-collision loop in lib.rs's
`update_player` (the in-place mutations of `p.x`, `p.y`, `p.vy`,
`p.on_ground`). -/
structure LColl where
  cx : ℚ
  cy : ℚ
  cvy : ℚ
  cog : Bool

/-- The platform-collision loop of lib.rs's `update_player`: the player
AABB at the integrated position is tested against every active platform;
landing from above snaps to the platform top, zeroes vertical velocity and
(for movers) drags `p.x` by the platform speed. -/
def lCollide (newX newY : ℚ) : List MPlatform → LColl → LColl
  | [], st => st
  | q :: rest, st =>
      if q.active = false then lCollide newX newY rest st
      else if aabbOverlap newX newY PLAYER_WIDTH PLAYER_HEIGHT q.x q.y q.width q.height ∧
          st.cvy ≤ 0 ∧ q.y + q.height - 0.2 ≤ st.cy then
        lCollide newX newY rest
          { cx := st.cx + (if q.moving then q.move_speed else 0),
            cy := q.y + q.height, cvy := 0, cog := true }
      else lCollide newX newY rest st

/-- `update_player` from lib.rs, as a pure function of the simulation
state, this player's pad sample and the random stream (one value of the
stream is consumed by `random_f32_range(-6.0, 6.0)` on respawn).  The
statement order of the source is preserved through the chain of
intermediate player records. -/
def lUpdatePlayer (inp : LInput) (s : LSim) (rng : List ℚ) (i : Fin 4) : LSim × List ℚ :=
  let p := s.players i
  if p.active = false then (s, rng)
  else if p.dead = true then
    if 0 < p.respawn_timer then
      let pw : LPlayer := { p with respawn_timer := p.respawn_timer - 1 }
      ({ s with players := Function.update s.players i pw }, rng)
    else
      let r := rng.headI
      let pw : LPlayer := { p with dead := false, ammo := MAX_AMMO, melee_timer := 0,
                                   x := r, y := 6, vx := 0, vy := 0 }
      ({ s with players := Function.update s.players i pw }, rng.tail)
  else
    let pad := inp.pads i
    let dpadH : ℚ := if pad.heldRight then 1 else if pad.heldLeft then -1 else 0
    let dpadV : ℚ := if pad.heldUp then 1 else if pad.heldDown then -1 else 0
    let inputX := if absQ dpadH < absQ pad.stickX then pad.stickX else dpadH
    let inputY := if absQ dpadV < absQ pad.stickY then pad.stickY else dpadV
    let accel := if p.on_ground then MOVE_SPEED * 0.15 else MOVE_SPEED * 0.08
    let vx1 := (p.vx + inputX * accel) * (if p.on_ground then FRICTION else AIR_FRICTION)
    let p1 : LPlayer := { p with
      vx := clampQ vx1 (-MOVE_SPEED) MOVE_SPEED,
      facing_right := if (0.3 : ℚ) < absQ inputX then decide (0 < inputX) else p.facing_right }
    let p2 : LPlayer :=
      if pad.pressedA ∧ p1.on_ground = true then { p1 with vy := JUMP_FORCE, on_ground := false }
      else p1
    let p3 : LPlayer :=
      if pad.pressedA ∧ p2.on_ground = false then
        if checkWallCollision s.stage.platforms (p2.x - 0.1) p2.y (p2.y + PLAYER_HEIGHT) then
          { p2 with vy := JUMP_FORCE * 0.9, vx := MOVE_SPEED * 0.8, facing_right := true }
        else if checkWallCollision s.stage.platforms (p2.x + PLAYER_WIDTH + 0.1) p2.y
            (p2.y + PLAYER_HEIGHT) then
          { p2 with vy := JUMP_FORCE * 0.9, vx := -(MOVE_SPEED * 0.8), facing_right := false }
        else p2
      else p2
    let p4 : LPlayer := if pad.heldA = false ∧ 0 < p3.vy then { p3 with vy := p3.vy * 0.5 } else p3
    let p5 : LPlayer := { p4 with vy := p4.vy - GRAVITY }
    let shoot := pad.pressedB ∧ 0 < p5.ammo ∧ p5.melee_timer = 0
    let bullets1 := if shoot then lSpawnBullet p5 i inputX inputY s.bullets else s.bullets
    let p6 : LPlayer := if shoot then { p5 with ammo := p5.ammo - 1 } else p5
    let p7 : LPlayer :=
      if pad.pressedX ∧ p6.melee_timer = 0 then
        { p6 with melee_timer := MELEE_DURATION,
                  vx := p6.vx + (if p6.facing_right then 0.15 else -0.15) }
      else p6
    let p8 : LPlayer :=
      if 0 < p7.melee_timer then { p7 with melee_timer := p7.melee_timer - 1 } else p7
    let newX := p8.x + p8.vx
    let newY := p8.y + p8.vy
    let st := lCollide newX newY s.stage.platforms
      { cx := p8.x, cy := p8.y, cvy := p8.vy, cog := false }
    let yFinal := if st.cog = false ∨ 0 < st.cvy then newY else st.cy
    let p9 : LPlayer := { p8 with
      x := clampQ newX (-10) (10 - PLAYER_WIDTH), y := yFinal, vy := st.cvy, on_ground := st.cog }
    let s1 : LSim := { s with players := Function.update s.players i p9, bullets := bullets1 }
    if p9.y < DEATH_Y then (lKillPlayer s1 i i, rng) else (s1, rng)

/-- The `for i in 0..MAX_PLAYERS { update_player(i) }` loop of `update`. -/
def lUpdatePlayers (inp : LInput) : LSim → List ℚ → List (Fin 4) → LSim × List ℚ
  | s, rng, [] => (s, rng)
  | s, rng, i :: rest =>
      let sr := lUpdatePlayer inp s rng i
      lUpdatePlayers inp sr.1 sr.2 rest

/-- `spawn_players` from lib.rs: the first `min(player_count(), 4)` slots
are (re)spawned at the fixed table positions, preserving kills; the rest
are deactivated. -/
def lSpawnPlayers (inp : LInput) (s : LSim) : LSim :=
  let table : Fin 4 → ℚ × ℚ := fun i =>
    if i = 0 then (-6, 2) else if i = 1 then (6, 2) else if i = 2 then (-3, 5) else (3, 5)
  let count := min inp.playerCount 4
  { s with players := fun i =>
      if (i : ℕ) < count then
        { x := (table i).1, y := (table i).2, vx := 0, vy := 0,
          on_ground := false, facing_right := decide ((i : ℕ) % 2 = 0), active := true,
          ammo := MAX_AMMO, melee_timer := 0, dead := false, respawn_timer := 0,
          kills := (s.players i).kills }
      else { s.players i with active := false } }

/-- `reset_round` from lib.rs: clear bullets, set up the stage, spawn the
players, enter `Countdown` at 180 ticks. -/
def lResetRound (inp : LInput) (s : LSim) : LSim :=
  let s1 : LSim := { s with bullets := s.bullets.map fun b => { b with active := false } }
  let s2 : LSim := { s1 with stage := setupCurrentStage s1.game.current_stage s1.stage }
  let s3 := lSpawnPlayers inp s2
  { s3 with game := { s3.game with phase := LPhase.Countdown, countdown := 180 } }

/-- `reset_match` from lib.rs: zero all kills, back to stage 0, reset the
round. -/
def lResetMatch (inp : LInput) (s : LSim) : LSim :=
  let s1 : LSim := { s with players := fun i => { s.players i with kills := 0 } }
  lResetRound inp { s1 with game := { s1.game with current_stage := 0 } }

/-- `∃ i < n, f i` over the `for i in 0..player_count()` loop of the Title
phase (each iteration performs the same action, so any press suffices). -/
def anyLt (n : ℕ) (f : ℕ → Bool) : Bool :=
  match n with
  | 0 => false
  | m + 1 => anyLt m f || f m

/-- `update` from lib.rs (the tick function), as a pure function of the
previous simulation state, this tick's input samples and the pseudo-random
stream; it returns the new state and the unconsumed tail of the stream. -/
def lTick (inp : LInput) (rng : List ℚ) (s : LSim) : LSim × List ℚ :=
  let s0 : LSim := { s with tick := s.tick + 1 }
  match s0.game.phase with
  | LPhase.Title =>
      if anyLt inp.playerCount (fun i => (inp.pads i).pressedA || (inp.pads i).pressedStart) then
        let s1 := lResetMatch inp s0
        ({ s1 with game := { s1.game with phase := LPhase.Countdown } }, rng)
      else (s0, rng)
  | LPhase.Countdown =>
      if 0 < s0.game.countdown then
        ({ s0 with game := { s0.game with countdown := s0.game.countdown - 1 } }, rng)
      else ({ s0 with game := { s0.game with phase := LPhase.Playing } }, rng)
  | LPhase.Playing =>
      let s1 : LSim := { s0 with stage := { s0.stage with
        platforms := s0.stage.platforms.map lUpdatePlatform } }
      let sr := lUpdatePlayers inp s1 rng allFour
      let sb := lUpdateBullets sr.1 sr.1.bullets
      let s2 : LSim := { sb.1 with bullets := sb.2 }
      let s3 := lUpdateMelee s2 allFour
      let s4 : LSim :=
        if 0 < s3.game.round_end_timer then
          { s3 with game := { s3.game with round_end_timer := s3.game.round_end_timer - 1 } }
        else s3
      (s4, sr.2)
  | LPhase.RoundEnd => (s0, rng)
  | LPhase.MatchEnd =>
      if allFour.any (fun i => (s0.players i).active && (inp.pads i).pressedStart) then
        ({ s0 with game := { s0.game with phase := LPhase.Title } }, rng)
      else (s0, rng)

end Legacy

namespace NeonDuel

/-! ## Auxiliary definitions for the statements -/

/-- Overwrite every player's spawn-invulnerability timer (used to state
that kill resolution never reads it). -/
def setInv (s : CState) (f : Fin 4 → ℕ) : CState :=
  { s with players := fun i => { s.players i with invuln_timer := f i } }

/-- Zero every player's spawn-invulnerability timer. -/
def stripInv (s : CState) : CState := setInv s fun _ => 0

/-- The bullet after the integration and lifetime-decrement steps of
`update_bullets` (before the bounds/platform/player tests). -/
def movedBullet (b : MBullet) : MBullet :=
  { b with x := b.x + b.vx, y := b.y + b.vy, lifetime := b.lifetime - 1 }

/-- "The player scan does nothing to this bullet": every player is either
skipped (inactive, dead, or the owner) or triggers neither the deflection
test nor the hit test. -/
def noHitScan (s : CState) (b : MBullet) : Prop :=
  ∀ i : Fin 4,
    (s.players i).active = false ∨ (s.players i).dead = true ∨ i = b.owner ∨
      (¬ deflectCond (s.players i) b ∧
       ¬ pointInAabb b.x b.y (s.players i).x (s.players i).y PLAYER_WIDTH PLAYER_HEIGHT)

/-- "Never intercepted" for one processed tick: after moving, the bullet is
inside the bounds rectangle, on no platform, and interacts with no player. -/
def untouched (s : CState) (pl : List MPlatform) (b : MBullet) : Prop :=
  ¬ bulletOutOfBounds (movedBullet b) ∧ ¬ hitsPlatform pl (movedBullet b) ∧
    noHitScan s (movedBullet b)

/-- The trajectory of a single bullet slot under repeated ticks of
`update_bullets`, in an ambient evolution `env` of the player/game state
and platform table. -/
def bulletTraj (env : ℕ → CState × List MPlatform) (b : MBullet) : ℕ → MBullet
  | 0 => b
  | n + 1 => (updateBullet (env n).1 (env n).2 (bulletTraj env b n)).2

/-- A living opponent of `v`: the players considered by
`overtime_killer_for`'s nearest-opponent search. -/
def eligible (s : CState) (v i : Fin 4) : Prop :=
  ¬ i = v ∧ (s.players i).active = true ∧ (s.players i).dead = false

instance instDecEligible (s : CState) (v i : Fin 4) : Decidable (eligible s v i) := by
  unfold eligible; infer_instance

/-! ## Concrete states for the witnesses -/

/-- An inactive default player slot. -/
def basePlayer : MPlayer :=
  { x := 0, y := 0, facing_right := true, active := false, dead := false,
    melee_timer := 0, respawn_timer := 0, invuln_timer := 0, kills := 0 }

/-- An active, living player at a position. -/
def activeAt (x y : ℚ) : MPlayer := { basePlayer with active := true, x := x, y := y }

/-- A game state in the `Playing` phase with the default arena. -/
def baseGame : MGame :=
  { phase := GamePhase.Playing, round_end_timer := 0, final_ko_timer := 0,
    winner_idx := 0, overtime := false, arena_left := -10, arena_right := 10 }

/-- Two-player state used by the C2 witness: first-to-1 rules. -/
def s2Ex : CState :=
  { players := fun i => if i = 0 then activeAt 0 0 else if i = 1 then activeAt 5 0 else basePlayer
    game := baseGame
    cfg := { kills_to_win := 1 } }

/-- State used by the C3 witness: player 1 swinging melee, facing left. -/
def s3Ex : CState :=
  { players := fun i =>
      if i = 1 then { activeAt 2 0 with facing_right := false, melee_timer := 5 } else basePlayer
    game := baseGame
    cfg := { kills_to_win := 5 } }

/-- Bullet used by the C3 witness, owned by player 0, inside player 1's
melee range. -/
def b3Ex : MBullet :=
  { x := 1.4, y := 0.6, vx := 0.4, vy := 0, owner := 0, lifetime := 50, active := true }

/-- State used by the C4 witness: player 1 standing in the bullet's path. -/
def s4Ex : CState :=
  { players := fun i => if i = 1 then activeAt 0 0 else basePlayer
    game := baseGame
    cfg := { kills_to_win := 5 } }

/-- Bullet used by the C4 witness, owned by player 0, inside player 1's
bounding box. -/
def b4Ex : MBullet :=
  { x := 0.1, y := 0.5, vx := 0.4, vy := 0, owner := 0, lifetime := 50, active := true }

/-- Bullet used by the C5 counterexample: one integration step before
player 1's melee range, mid-lifetime. -/
def b5Ex : MBullet :=
  { x := 1, y := 0.6, vx := 0.4, vy := 0, owner := 0, lifetime := 50, active := true }

/-- State used by the C6 witness: player 0 already dead. -/
def s6Ex : CState :=
  { players := fun i =>
      if i = 0 then { activeAt 0 0 with dead := true, respawn_timer := 40 }
      else if i = 1 then activeAt 5 0 else basePlayer
    game := baseGame
    cfg := { kills_to_win := 5 } }

/-- State used by the C7 witness: overtime, arena shrunk to `[-3, 3]`,
player 0 pushed past the left wall, player 1 alive at the center. -/
def s7Ex : CState :=
  { players := fun i => if i = 0 then activeAt (-5) 0 else if i = 1 then activeAt 0 0 else basePlayer
    game := { baseGame with overtime := true, arena_left := -3, arena_right := 3 }
    cfg := { kills_to_win := 5 } }

/-- Game state used by the C8 witness: overtime with the full arena. -/
def g8Ex : MGame := { baseGame with overtime := true }

/-- A state with no active player (used by the C5 witness): the bullet
crosses an empty arena. -/
def s5Ex : CState :=
  { players := fun _ => basePlayer, game := baseGame, cfg := { kills_to_win := 5 } }

/-- The inert ambient evolution for the C5 witness. -/
def env5Ex : ℕ → CState × List MPlatform := fun _ => (s5Ex, [])

/-- A freshly spawned, motionless bullet at the origin (C5 witness). -/
def b5Quiet : MBullet :=
  { x := 0, y := 0, vx := 0, vy := 0, owner := 0, lifetime := 120, active := true }

/-- An unused (inactive, zeroed) platform slot. -/
def emptyPlatform : MPlatform :=
  { x := 0, y := 0, width := 0, height := 0, active := false,
    moving := false, move_speed := 0, move_min := 0, move_max := 0 }

/-- A fresh 16-slot platform table. -/
def baseStage : StageData :=
  { platforms := List.replicate 16 emptyPlatform, has_pit := false, pit_y := -10 }

end NeonDuel

namespace Legacy

open NeonDuel (MAX_AMMO)

/-- A default pad sample: centred stick, nothing held or pressed. -/
def basePad : LPad :=
  { stickX := 0, stickY := 0, heldUp := false, heldDown := false, heldLeft := false,
    heldRight := false, heldA := false, pressedA := false, pressedB := false,
    pressedX := false, pressedStart := false }

/-- An inactive default player slot of the lib.rs iteration. -/
def baseLPlayer : LPlayer :=
  { x := 0, y := 0, vx := 0, vy := 0, on_ground := false, facing_right := true,
    active := false, ammo := MAX_AMMO, melee_timer := 0, dead := false,
    respawn_timer := 0, kills := 0 }

/-- Concrete simulation state used by the C1 witness. -/
def s1Ex : LSim :=
  { players := fun i => if (i : ℕ) < 2 then { baseLPlayer with active := true } else baseLPlayer
    bullets := List.replicate 32 { x := 0, y := 0, vx := 0, vy := 0, owner := 0,
                                   lifetime := 0, active := false }
    stage := NeonDuel.baseStage
    game := { phase := LPhase.Playing, countdown := 0, round_end_timer := 0, current_stage := 0 }
    tick := 7 }

/-- Concrete input sample used by the C1 witness. -/
def i1Ex : LInput :=
  { pads := fun j => if j = 0 then { basePad with heldRight := true, pressedA := true } else basePad
    playerCount := 2 }

/-- Concrete pseudo-random stream used by the C1 witness. -/
def r1Ex : List ℚ := [1.5, -2.25, 3]

end Legacy

/-! # Theorems -/

namespace NeonDuel

/-! ## Facts about `killPlayer` -/

/-- How `kill_player` transforms the player array, slot by slot. -/
theorem killPlayer_players_apply (s : CState) (v k i : Fin 4) :
    (killPlayer s v k).players i =
      if (s.players v).dead = true then s.players i
      else if i = v then
        { s.players v with dead := true, respawn_timer := RESPAWN_DELAY, invuln_timer := 0 }
      else if i = k ∧ ¬ k = v then { s.players k with kills := (s.players k).kills + 1 }
      else s.players i := by
  unfold killPlayer
  simp only [apply_ite CState.players, apply_ite (fun g : Fin 4 → MPlayer => g i), ite_self,
    Function.update_apply]
  split_ifs <;> simp_all

/-- How `kill_player` transforms the game state. -/
theorem killPlayer_game (s : CState) (v k : Fin 4) :
    (killPlayer s v k).game =
      if (s.players v).dead = true then s.game
      else if ¬ k = v ∧ max s.cfg.kills_to_win 1 ≤ (s.players k).kills + 1 then
        { s.game with winner_idx := min (k : ℕ) 3, final_ko_timer := 75,
                      round_end_timer := 0, phase := GamePhase.FinalKo }
      else if s.game.phase = GamePhase.Playing then { s.game with round_end_timer := 30 }
      else s.game := by
  unfold killPlayer
  simp only [apply_ite CState.game, apply_ite MGame.phase, apply_ite MPlayer.kills,
    Function.update_apply]
  split_ifs <;> simp_all

/-- After kill resolution the victim is dead (an already-dead victim was
dead before the call and the call leaves the state unchanged). -/
theorem killPlayer_dead_victim (s : CState) (v k : Fin 4) :
    ((killPlayer s v k).players v).dead = true := by
  rw [killPlayer_players_apply]
  split_ifs <;> simp_all

/-- Kill resolution on an already-dead victim is a no-op on the whole
state. -/
theorem killPlayer_noop (s : CState) (v k : Fin 4) (h : (s.players v).dead = true) :
    killPlayer s v k = s := by
  unfold killPlayer; simp [h]

/-! ## C6 — idempotent kill resolution -/

/-- C6: kill resolution on an already-dead victim is a no-op — a second
`kill_player` call on the same victim in the same tick changes no player's
kill count, dead flag or respawn timer, and no game-state phase or
timer. -/
theorem c6_kill_idempotent :
    (∀ (s : CState) (v k : Fin 4), (s.players v).dead = true → killPlayer s v k = s) ∧
    (∀ (s : CState) (v k k' : Fin 4), killPlayer (killPlayer s v k) v k' = killPlayer s v k) :=
  ⟨fun s v k h => killPlayer_noop s v k h,
   fun s v k k' => killPlayer_noop _ v k' (killPlayer_dead_victim s v k)⟩

/-- C6 witness: a concrete already-dead victim; the second call leaves the
state untouched. -/
theorem c6_witness : killPlayer s6Ex 0 1 = s6Ex :=
  c6_kill_idempotent.1 s6Ex 0 1 (by decide)

/-! ## C2 — the win condition enters FinalKo, never MatchEnd -/

/-- C2: when a kill resolution increments the killer's kill count to the
configured kills-to-win, the phase becomes `FinalKo`; the phase becomes
`FinalKo` only through that threshold (so the transition happens exactly
once, at the match-winning kill); and a kill never moves the phase from
`Playing` directly to `MatchEnd`. -/
theorem c2_finalko_on_threshold (s : CState) (v k : Fin 4)
    (hv : (s.players v).dead = false) (hk : ¬ k = v) :
    (max s.cfg.kills_to_win 1 ≤ (s.players k).kills + 1 →
      (killPlayer s v k).game.phase = GamePhase.FinalKo) ∧
    ((killPlayer s v k).game.phase = GamePhase.FinalKo →
      s.game.phase = GamePhase.FinalKo ∨ max s.cfg.kills_to_win 1 ≤ (s.players k).kills + 1) ∧
    ((killPlayer s v k).game.phase = s.game.phase ∨
      (killPlayer s v k).game.phase = GamePhase.FinalKo) ∧
    (s.game.phase = GamePhase.Playing → (killPlayer s v k).game.phase ≠ GamePhase.MatchEnd) := by
  rw [killPlayer_game]
  simp only [hv, hk]
  split_ifs <;> simp_all

/-- C2 witness: two players, kills-to-win 1; player 0 kills player 1 and
the phase becomes `FinalKo`. -/
theorem c2_witness : (killPlayer s2Ex 1 0).game.phase = GamePhase.FinalKo :=
  (c2_finalko_on_threshold s2Ex 1 0 (by decide) (by decide)).1 (by decide)

/-! ## C8 — overtime arena shrink (spec-modelled) -/

/-- C8: on every overtime tick, while the arena is wider than the floor
both bounds move in symmetrically; the width never drops below the floor;
and once the width is at the floor the bounds hold unchanged.  (The shrink
driver is not under src/; `shrinkArena` is modelled from the spec.) -/
theorem c8_overtime_shrink (rate : ℚ) (hr : 0 < rate) (g : MGame)
    (hov : g.overtime = true) (hw : MIN_ARENA_WIDTH ≤ g.arena_right - g.arena_left) :
    (MIN_ARENA_WIDTH < g.arena_right - g.arena_left →
      g.arena_left < (shrinkArena rate g).arena_left ∧
      (shrinkArena rate g).arena_right < g.arena_right ∧
      (shrinkArena rate g).arena_left - g.arena_left =
        g.arena_right - (shrinkArena rate g).arena_right) ∧
    MIN_ARENA_WIDTH ≤ (shrinkArena rate g).arena_right - (shrinkArena rate g).arena_left ∧
    (g.arena_right - g.arena_left = MIN_ARENA_WIDTH → shrinkArena rate g = g) := by
  unfold shrinkArena
  simp only [hov, if_true]
  split_ifs with hlt
  · have hstep : 0 < min rate ((g.arena_right - g.arena_left - MIN_ARENA_WIDTH) / 2) :=
      lt_min hr (by linarith)
    have hstep2 : min rate ((g.arena_right - g.arena_left - MIN_ARENA_WIDTH) / 2) ≤
        (g.arena_right - g.arena_left - MIN_ARENA_WIDTH) / 2 := min_le_right _ _
    refine ⟨fun _ => ⟨by simpa using hstep, by simpa using hstep, by ring⟩, ?_, ?_⟩
    · simp only
      linarith
    · intro h0
      exact absurd h0 (by linarith)
  · exact ⟨fun h => absurd h hlt, hw, fun _ => rfl⟩

/-- C8 witness: with overtime active, the full `[-10, 10]` arena and rate
`1/100`, the shrunk width still respects the floor. -/
theorem c8_witness :
    MIN_ARENA_WIDTH ≤ (shrinkArena (1/100) g8Ex).arena_right - (shrinkArena (1/100) g8Ex).arena_left :=
  (c8_overtime_shrink (1/100) (by norm_num) g8Ex rfl (by norm_num [MIN_ARENA_WIDTH, g8Ex, baseGame])).2.1

end NeonDuel

/-! ## C1 — determinism of the tick function -/

/-- C1: two runs of the tick function (`update` in lib.rs) started from
identical simulation state — players, bullets, platforms, game state —
and fed identical ordered per-player input samples and an identical
pseudo-random number stream produce identical resulting state (all
cosmetic calls stubbed to no-ops; in this embedding every host input is an
explicit argument, so the tick is a pure function of them). -/
theorem c1_tick_deterministic (s1 s2 : Legacy.LSim) (i1 i2 : Legacy.LInput)
    (r1 r2 : List ℚ) (hs : s1 = s2) (hi : i1 = i2) (hr : r1 = r2) :
    Legacy.lTick i1 r1 s1 = Legacy.lTick i2 r2 s2 := by
  subst hs; subst hi; subst hr; rfl

/-- C1 witness: the two runs coincide on a concrete state, input sample
and random stream. -/
theorem c1_witness : Legacy.lTick Legacy.i1Ex Legacy.r1Ex Legacy.s1Ex =
    Legacy.lTick Legacy.i1Ex Legacy.r1Ex Legacy.s1Ex :=
  c1_tick_deterministic Legacy.s1Ex Legacy.s1Ex Legacy.i1Ex Legacy.i1Ex
    Legacy.r1Ex Legacy.r1Ex rfl rfl rfl

namespace NeonDuel

/-! ## C9 — out-of-range stage index fallback -/

/-- C9 counterexample: at the out-of-range stage index 5,
`setup_current_stage` populates the grid-arena (stage 0) layout, yet
`get_spawn_position` returns stage 2's spawn point, which differs from
stage 0's — the two fallbacks do not name the same default stage. -/
theorem c9_counterexample :
    setupCurrentStage 5 baseStage = setupStageGridArena baseStage ∧
    getSpawnPosition 5 0 ≠ getSpawnPosition 0 0 := by
  refine ⟨rfl, ?_⟩
  norm_num [getSpawnPosition, SPAWN_POINTS, List.getD]

/-- C9 (amended): for every stage index outside `0..2` no error is
signalled and each lookup falls back to a fixed stage — but not the same
one: `setup_current_stage` populates the grid-arena (stage 0) layout,
while `get_spawn_position` clamps the index and returns stage 2's spawn
points, for every player index. -/
theorem c9_stage_fallback (stage : ℕ) (h : 2 < stage) (old : StageData) (pidx : ℕ) :
    setupCurrentStage stage old = setupStageGridArena old ∧
    getSpawnPosition stage pidx = getSpawnPosition 2 pidx := by
  obtain ⟨m, rfl⟩ : ∃ m, stage = m + 3 := ⟨stage - 3, by omega⟩
  refine ⟨rfl, ?_⟩
  have h2 : min (m + 3) 2 = 2 := by omega
  simp [getSpawnPosition, h2]

/-- C9 witness: stage index 7 behaves like the generic out-of-range
case. -/
theorem c9_witness : getSpawnPosition 7 1 = getSpawnPosition 2 1 :=
  (c9_stage_fallback 7 (by decide) baseStage 1).2

end NeonDuel

namespace NeonDuel

/-! ## Facts about the bullet/player scan -/

/-- Killing `v` never changes another player's dead flag. -/
theorem killPlayer_dead_other (s : CState) (v k i : Fin 4) (h : ¬ i = v) :
    ((killPlayer s v k).players i).dead = (s.players i).dead := by
  rw [killPlayer_players_apply]
  split_ifs <;> simp_all

/-- The scan never changes the dead flag of a player that is not in the
remaining scan list. -/
theorem scanHit_dead_not_mem (l : List (Fin 4)) : ∀ (s : CState) (b : MBullet) (i : Fin 4),
    i ∉ l → ((scanHit s b l).1.players i).dead = (s.players i).dead := by
  induction l with
  | nil => intro s b i _; rfl
  | cons t rest ih =>
    intro s b i h
    have hti : ¬ i = t := fun hh => h (hh ▸ List.mem_cons_self t rest)
    have hrest : i ∉ rest := fun hh => h (List.mem_cons_of_mem t hh)
    simp only [scanHit]
    split_ifs with h1 h2 h3 h4
    · exact ih s b i hrest
    · exact ih s b i hrest
    · exact ih s (deflect b t) i hrest
    · exact killPlayer_dead_other s t b.owner i hti
    · exact ih s b i hrest

/-! ## C3 — deflection is reflection plus re-ownership -/

/-- C3: when the scan of `update_bullets` reaches an active, non-dead,
non-owner player whose melee timer is running and the bullet lies within
`MELEE_RANGE` of the melee hitbox center, the scan continues with the
deflected bullet: its velocity is exactly the negation of the prior
velocity, its owner becomes that player, its lifetime is reset to 120, it
stays active, and that player is not killed by this bullet on this
tick. -/
theorem c3_deflection (s : CState) (b : MBullet) (i : Fin 4) (rest : List (Fin 4))
    (hmem : i ∉ rest)
    (hact : (s.players i).active = true)
    (hdead : (s.players i).dead = false)
    (hown : ¬ i = b.owner)
    (hdc : deflectCond (s.players i) b)
    (hbact : b.active = true) :
    scanHit s b (i :: rest) = scanHit s (deflect b i) rest ∧
    (deflect b i).vx = -b.vx ∧ (deflect b i).vy = -b.vy ∧
    (deflect b i).owner = i ∧ (deflect b i).lifetime = 120 ∧
    (deflect b i).active = true ∧
    ((scanHit s (deflect b i) rest).1.players i).dead = false := by
  have hstep : scanHit s b (i :: rest) = scanHit s (deflect b i) rest := by
    simp only [scanHit]
    rw [if_neg (by simp [hact, hdead]), if_neg hown, if_pos hdc]
  refine ⟨hstep, rfl, rfl, rfl, rfl, ?_, ?_⟩
  · simpa [deflect] using hbact
  · rw [scanHit_dead_not_mem rest s (deflect b i) i hmem]
    exact hdead

/-- C3 witness: a concrete bullet owned by player 0 entering player 1's
active melee range is deflected and player 1 stays alive. -/
theorem c3_witness : ((scanHit s3Ex (deflect b3Ex 1) []).1.players 1).dead = false :=
  (c3_deflection s3Ex b3Ex 1 [] (by simp) (by decide) (by decide) (by decide)
    (by norm_num [deflectCond, meleeDeflectPos, s3Ex, activeAt, basePlayer, b3Ex,
      PLAYER_WIDTH, PLAYER_HEIGHT, MELEE_RANGE])
    (by decide)).2.2.2.2.2.2

end NeonDuel

namespace NeonDuel

/-! ## C4 — at most one kill per bullet per tick -/

/-- Over any scan list: at most one player can go from alive to dead, and
if one does the scanned bullet ends up deactivated. -/
theorem scanHit_at_most_one_aux (l : List (Fin 4)) :
    ∀ (s : CState) (b : MBullet) (i j : Fin 4),
      (s.players i).dead = false → ((scanHit s b l).1.players i).dead = true →
      (s.players j).dead = false → ((scanHit s b l).1.players j).dead = true →
      i = j ∧ ((scanHit s b l).2).active = false := by
  induction l with
  | nil =>
    intro s b i j h1 h2 _ _
    exact absurd h2 (by simp [scanHit, h1])
  | cons t rest ih =>
    intro s b i j h1 h2 h3 h4
    simp only [scanHit] at h2 h4 ⊢
    split_ifs at h2 h4 ⊢ with c1 c2 c3 c4
    · exact ih s b i j h1 h2 h3 h4
    · exact ih s b i j h1 h2 h3 h4
    · exact ih s (deflect b t) i j h1 h2 h3 h4
    · have hi : i = t := by
        by_contra hne
        rw [killPlayer_dead_other s t b.owner i hne] at h2
        simp [h1] at h2
      have hj : j = t := by
        by_contra hne
        rw [killPlayer_dead_other s t b.owner j hne] at h4
        simp [h3] at h4
      exact ⟨hi.trans hj.symm, rfl⟩
    · exact ih s b i j h1 h2 h3 h4

/-- C4: in a single tick's player-collision scan a bullet resolves at most
one kill — any two players newly dead after the scan are the same player —
and when a kill happens the bullet is deactivated immediately (no further
players are tested: the scan returns at the kill). -/
theorem c4_at_most_one_kill (s : CState) (b : MBullet) (i j : Fin 4)
    (h1 : (s.players i).dead = false) (h2 : ((scanHit s b allFour).1.players i).dead = true)
    (h3 : (s.players j).dead = false) (h4 : ((scanHit s b allFour).1.players j).dead = true) :
    i = j ∧ ((scanHit s b allFour).2).active = false :=
  scanHit_at_most_one_aux allFour s b i j h1 h2 h3 h4

/-- C4 witness: a concrete bullet inside player 1's bounding box kills
exactly that player and is deactivated. -/
theorem c4_witness : ((scanHit s4Ex b4Ex allFour).2).active = false :=
  (c4_at_most_one_kill s4Ex b4Ex 1 1 (by decide)
    (by norm_num [scanHit, allFour, killPlayer_players_apply, deflectCond, pointInAabb,
      meleeDeflectPos, s4Ex, b4Ex, activeAt, basePlayer, PLAYER_WIDTH, PLAYER_HEIGHT,
      MELEE_RANGE])
    (by decide)
    (by norm_num [scanHit, allFour, killPlayer_players_apply, deflectCond, pointInAabb,
      meleeDeflectPos, s4Ex, b4Ex, activeAt, basePlayer, PLAYER_WIDTH, PLAYER_HEIGHT,
      MELEE_RANGE])).2

end NeonDuel

namespace NeonDuel

/-! ## C5 — bullet lifetime -/

/-- Over any scan list, the scanned bullet is unchanged, or was deflected
(lifetime reset to `BULLET_LIFETIME`, active flag untouched), or was
consumed by a kill. -/
theorem scanHit_bullet_cases (l : List (Fin 4)) : ∀ (s : CState) (b : MBullet),
    (scanHit s b l).2 = b ∨
    ((scanHit s b l).2.lifetime = BULLET_LIFETIME ∧ (scanHit s b l).2.active = b.active) ∨
    (scanHit s b l).2.active = false := by
  induction l with
  | nil => intro s b; exact Or.inl rfl
  | cons t rest ih =>
    intro s b
    simp only [scanHit]
    split_ifs with c1 c2 c3 c4
    · exact ih s b
    · exact ih s b
    · rcases ih s (deflect b t) with h | ⟨h1, h2⟩ | h
      · exact Or.inr (Or.inl (by rw [h]; exact ⟨rfl, rfl⟩))
      · exact Or.inr (Or.inl ⟨h1, h2⟩)
      · exact Or.inr (Or.inr h)
    · exact Or.inr (Or.inr rfl)
    · exact ih s b

/-- If every listed player is skipped or out of reach, the scan is the
identity. -/
theorem scanHit_id (l : List (Fin 4)) : ∀ (s : CState) (b : MBullet),
    (∀ i ∈ l, (s.players i).active = false ∨ (s.players i).dead = true ∨ i = b.owner ∨
      (¬ deflectCond (s.players i) b ∧
        ¬ pointInAabb b.x b.y (s.players i).x (s.players i).y PLAYER_WIDTH PLAYER_HEIGHT)) →
    scanHit s b l = (s, b) := by
  induction l with
  | nil => intro s b _; rfl
  | cons t rest ih =>
    intro s b h
    have ht := h t (List.mem_cons_self t rest)
    have hrest : ∀ i ∈ rest, _ := fun i hi => h i (List.mem_cons_of_mem t hi)
    simp only [scanHit]
    by_cases hskip : (s.players t).active = false ∨ (s.players t).dead = true
    · rw [if_pos hskip]; exact ih s b hrest
    · rw [if_neg hskip]
      by_cases howner : t = b.owner
      · rw [if_pos howner]; exact ih s b hrest
      · rw [if_neg howner]
        rcases ht with h1 | h1 | h1 | ⟨h1, h2⟩
        · exact absurd (Or.inl h1) hskip
        · exact absurd (Or.inr h1) hskip
        · exact absurd h1 howner
        · rw [if_neg h1, if_neg h2]; exact ih s b hrest

/-- An inactive bullet slot is skipped unchanged. -/
theorem updateBullet_inactive (s : CState) (pl : List MPlatform) (b : MBullet)
    (hb : b.active = false) : updateBullet s pl b = (s, b) := by
  unfold updateBullet
  rw [if_pos hb]

/-- One processed tick of an active bullet: it ends inactive, or its
lifetime decremented by exactly one, or (deflection) its lifetime reset to
`BULLET_LIFETIME`. -/
theorem updateBullet_lifetime (s : CState) (pl : List MPlatform) (b : MBullet)
    (hb : b.active = true) :
    (updateBullet s pl b).2.active = false ∨
    ((updateBullet s pl b).2.lifetime = b.lifetime - 1 ∧ (updateBullet s pl b).2.active = true) ∨
    ((updateBullet s pl b).2.lifetime = BULLET_LIFETIME ∧ (updateBullet s pl b).2.active = true) := by
  unfold updateBullet
  rw [if_neg (by simp [hb])]
  dsimp only
  split_ifs with h1 h2 h3
  · exact Or.inl rfl
  · exact Or.inl rfl
  · exact Or.inl rfl
  · rcases scanHit_bullet_cases allFour s
        { b with x := b.x + b.vx, y := b.y + b.vy, lifetime := b.lifetime - 1 } with
      h | ⟨hl, ha⟩ | h
    · refine Or.inr (Or.inl ⟨?_, ?_⟩)
      · rw [h]
      · rw [h]; exact hb
    · refine Or.inr (Or.inr ⟨hl, ?_⟩)
      rw [ha]
      exact hb
    · exact Or.inl h

/-- One untouched tick of an active bullet: the state is unchanged, the
lifetime decrements by exactly one, and the bullet stays active iff its
lifetime has not run out. -/
theorem updateBullet_untouched (s : CState) (pl : List MPlatform) (b : MBullet)
    (hb : b.active = true) (hu : untouched s pl b) :
    (updateBullet s pl b).2.lifetime = b.lifetime - 1 ∧
    ((updateBullet s pl b).2.active = true ↔ 1 < b.lifetime) ∧
    (updateBullet s pl b).1 = s := by
  obtain ⟨hob, hpl, hscan⟩ := hu
  unfold updateBullet
  rw [if_neg (by simp [hb])]
  dsimp only
  split_ifs with h1 h2 h3
  · refine ⟨rfl, ?_, rfl⟩
    constructor
    · intro hcontra; exact absurd hcontra (by simp)
    · intro hlt; exact absurd h1 (by omega)
  · exact absurd h2 hob
  · exact absurd h3 hpl
  · rw [scanHit_id allFour s
      { b with x := b.x + b.vx, y := b.y + b.vy, lifetime := b.lifetime - 1 }
      (fun i _ => hscan i)]
    refine ⟨rfl, ?_, rfl⟩
    dsimp only
    rw [hb]
    have h1' : 1 < b.lifetime := by omega
    simp [h1']

end NeonDuel

namespace NeonDuel

/-- C5 counterexample: a mid-lifetime bullet processed while active whose
lifetime does not decrease — it is deflected by player 1's running melee
and its lifetime is reset to 120 > 50. -/
theorem c5_counterexample :
    b5Ex.active = true ∧ b5Ex.lifetime = 50 ∧
    (updateBullet s3Ex [] b5Ex).2.active = true ∧
    (updateBullet s3Ex [] b5Ex).2.lifetime = 120 ∧
    ¬ (updateBullet s3Ex [] b5Ex).2.lifetime < b5Ex.lifetime := by
  have hev : (updateBullet s3Ex [] b5Ex).2 =
      deflect { b5Ex with x := 1.4, y := 0.6, lifetime := 49 } 1 := by
    norm_num [updateBullet, b5Ex, bulletOutOfBounds, hitsPlatform, scanHit, allFour,
      deflectCond, meleeDeflectPos, pointInAabb, s3Ex, activeAt, basePlayer, deflect,
      PLAYER_WIDTH, PLAYER_HEIGHT, MELEE_RANGE, BULLET_LIFETIME,
      (by decide : ¬ (0 : Fin 4) = 1), (by decide : ¬ (2 : Fin 4) = 1),
      (by decide : ¬ (3 : Fin 4) = 1), (by decide : ¬ (1 : Fin 4) = 0)]
  refine ⟨rfl, rfl, ?_, ?_, ?_⟩ <;> rw [hev] <;> norm_num [deflect, b5Ex, BULLET_LIFETIME]

/-- C5 (amended): every spawned bullet is claimed with lifetime exactly
120 and active; on a processed tick an active bullet either ends inactive,
or its lifetime decrements by exactly one, or — only when deflected — its
lifetime is reset to 120; and a bullet that is never intercepted (no
platform hit, no player interaction, never out of bounds) is inactive by
120 processed ticks after it was spawned. -/
theorem c5_bullet_lifetime :
    (∀ (p : MPlayer) (idx : Fin 4) (ax ay : ℚ) (bs : List MBullet) (b' : MBullet),
      b' ∈ spawnBullet p idx ax ay bs →
      b' ∈ bs ∨ (b'.lifetime = BULLET_LIFETIME ∧ b'.active = true)) ∧
    (∀ (s : CState) (pl : List MPlatform) (b : MBullet), b.active = true →
      (updateBullet s pl b).2.active = false ∨
      ((updateBullet s pl b).2.lifetime = b.lifetime - 1 ∧ (updateBullet s pl b).2.active = true) ∨
      ((updateBullet s pl b).2.lifetime = BULLET_LIFETIME ∧ (updateBullet s pl b).2.active = true)) ∧
    (∀ (env : ℕ → CState × List MPlatform) (b : MBullet),
      b.active = true → b.lifetime = BULLET_LIFETIME →
      (∀ n, n < 120 → untouched (env n).1 (env n).2 (bulletTraj env b n)) →
      (bulletTraj env b 120).active = false) := by
  refine ⟨?_, ?_, ?_⟩
  · intro p idx ax ay bs
    induction bs with
    | nil => intro b' h; exact absurd h (by simp [spawnBullet])
    | cons c rest ih =>
      intro b' h
      simp only [spawnBullet] at h
      split_ifs at h with hc
      · rcases List.mem_cons.mp h with rfl | h'
        · exact Or.inl (List.mem_cons_self _ _)
        · rcases ih b' h' with h'' | h''
          · exact Or.inl (List.mem_cons_of_mem _ h'')
          · exact Or.inr h''
      · rcases List.mem_cons.mp h with rfl | h'
        · exact Or.inr ⟨rfl, rfl⟩
        · exact Or.inl (List.mem_cons_of_mem _ h')
  · exact fun s pl b hb => updateBullet_lifetime s pl b hb
  · intro env b hact h120 hun
    have key : ∀ n, n ≤ 120 →
        (bulletTraj env b n).active = false ∨
        ((bulletTraj env b n).active = true ∧
          (bulletTraj env b n).lifetime = 120 - n ∧ n < 120) := by
      intro n
      induction n with
      | zero =>
        intro _
        exact Or.inr ⟨hact, by simpa [BULLET_LIFETIME] using h120, by omega⟩
      | succ m ih =>
        intro hm
        rcases ih (by omega) with hI | ⟨ha, hl, hlt⟩
        · left
          have hstep := updateBullet_inactive (env m).1 (env m).2 (bulletTraj env b m) hI
          simp only [bulletTraj, hstep]
          exact hI
        · have hstep := updateBullet_untouched (env m).1 (env m).2 (bulletTraj env b m)
            ha (hun m hlt)
          by_cases hend : m + 1 = 120
          · left
            have : ¬ (1 < (bulletTraj env b m).lifetime) := by omega
            have h2 := hstep.2.1
            simp only [bulletTraj]
            rcases Bool.eq_false_or_eq_true (updateBullet (env m).1 (env m).2
              (bulletTraj env b m)).2.active with ht | hf
            · exact absurd (h2.mp ht) this
            · exact hf
          · right
            refine ⟨?_, ?_, by omega⟩
            · simp only [bulletTraj]
              exact hstep.2.1.mpr (by omega)
            · simp only [bulletTraj]
              rw [hstep.1, hl]
              omega
    rcases key 120 le_rfl with h | ⟨_, _, h⟩
    · exact h
    · exact absurd h (by omega)

/-- One untouched tick of an active bullet, in full: the state is returned
unchanged and the bullet is exactly the moved, decremented one
(deactivated when the lifetime ran out). -/
theorem updateBullet_untouched_eq (s : CState) (pl : List MPlatform) (b : MBullet)
    (hb : b.active = true) (hu : untouched s pl b) :
    updateBullet s pl b =
      (s, if b.lifetime - 1 = 0 then { movedBullet b with active := false }
          else movedBullet b) := by
  obtain ⟨hob, hpl, hscan⟩ := hu
  unfold updateBullet
  rw [if_neg (by simp [hb])]
  dsimp only
  split_ifs with h1 h2 h3
  · rfl
  · exact absurd h2 hob
  · exact absurd h3 hpl
  · rw [scanHit_id allFour s
      { b with x := b.x + b.vx, y := b.y + b.vy, lifetime := b.lifetime - 1 }
      (fun i _ => hscan i)]
    rfl

/-- C5 witness: a motionless bullet in an empty arena, never intercepted,
is inactive 120 processed ticks after spawning with lifetime 120. -/
theorem c5_witness : (bulletTraj env5Ex b5Quiet 120).active = false := by
  have hfrozen : ∀ n, (bulletTraj env5Ex b5Quiet n).x = 0 ∧
      (bulletTraj env5Ex b5Quiet n).y = 0 ∧
      (bulletTraj env5Ex b5Quiet n).vx = 0 ∧ (bulletTraj env5Ex b5Quiet n).vy = 0 := by
    intro n
    induction n with
    | zero => exact ⟨rfl, rfl, rfl, rfl⟩
    | succ m ih =>
      obtain ⟨hx, hy, hvx, hvy⟩ := ih
      by_cases hact : (bulletTraj env5Ex b5Quiet m).active = true
      · have hun : untouched s5Ex [] (bulletTraj env5Ex b5Quiet m) := by
          refine ⟨?_, ?_, fun i => Or.inl rfl⟩
          · norm_num [bulletOutOfBounds, movedBullet, hx, hy, hvx, hvy]
          · simp [hitsPlatform]
        have hstep := updateBullet_untouched_eq s5Ex [] (bulletTraj env5Ex b5Quiet m) hact hun
        have htr : bulletTraj env5Ex b5Quiet (m + 1) =
            (updateBullet s5Ex [] (bulletTraj env5Ex b5Quiet m)).2 := rfl
        rw [htr, hstep]
        simp [apply_ite MBullet.x, apply_ite MBullet.y, apply_ite MBullet.vx,
          apply_ite MBullet.vy, movedBullet, hx, hy, hvx, hvy]
      · have hoff : (bulletTraj env5Ex b5Quiet m).active = false := by
          simpa using hact
        have htr : bulletTraj env5Ex b5Quiet (m + 1) =
            (updateBullet s5Ex [] (bulletTraj env5Ex b5Quiet m)).2 := rfl
        rw [htr, updateBullet_inactive s5Ex [] _ hoff]
        exact ⟨hx, hy, hvx, hvy⟩
  refine c5_bullet_lifetime.2.2 env5Ex b5Quiet rfl rfl (fun n _ => ?_)
  obtain ⟨hx, hy, hvx, hvy⟩ := hfrozen n
  refine ⟨?_, ?_, fun i => Or.inl rfl⟩
  · norm_num [bulletOutOfBounds, movedBullet, env5Ex, hx, hy, hvx, hvy]
  · simp [hitsPlatform, env5Ex]

end NeonDuel

namespace NeonDuel

/-! ## C7 — lethal overtime walls credit the nearest living opponent -/

/-- The running best distance of the nearest-opponent fold never
increases. -/
theorem otkAux_le (s : CState) (v : Fin 4) (l : List (Fin 4)) :
    ∀ (best : Fin 4) (bestD : ℚ), (otkAux s v l best bestD).2 ≤ bestD := by
  induction l with
  | nil => intro best bestD; exact le_refl _
  | cons i rest ih =>
    intro best bestD
    simp only [otkAux]
    split_ifs with h1 h2
    · exact ih best bestD
    · exact le_trans (ih i _) (le_of_lt h2)
    · exact ih best bestD

/-- The fold's final best distance is at most the distance of every
eligible listed opponent. -/
theorem otkAux_min (s : CState) (v : Fin 4) (l : List (Fin 4)) :
    ∀ (best : Fin 4) (bestD : ℚ) (j : Fin 4), j ∈ l → eligible s v j →
      (otkAux s v l best bestD).2 ≤ centerDistSq (s.players v) (s.players j) := by
  induction l with
  | nil => intro best bestD j hj _; exact absurd hj (List.not_mem_nil j)
  | cons i rest ih =>
    intro best bestD j hj he
    simp only [otkAux]
    split_ifs with h1 h2
    · rcases List.mem_cons.mp hj with rfl | hj'
      · rcases h1 with h | h | h <;> simp_all [eligible]
      · exact ih best bestD j hj' he
    · rcases List.mem_cons.mp hj with rfl | hj'
      · exact otkAux_le s v rest j _
      · exact ih i _ j hj' he
    · rcases List.mem_cons.mp hj with rfl | hj'
      · exact le_trans (otkAux_le s v rest best bestD) (not_lt.mp h2)
      · exact ih best bestD j hj' he

/-- The fold either keeps its accumulator or returns an eligible opponent
together with that opponent's distance. -/
theorem otkAux_spec (s : CState) (v : Fin 4) (l : List (Fin 4)) :
    ∀ (best : Fin 4) (bestD : ℚ),
      ((otkAux s v l best bestD).1 = best ∧ (otkAux s v l best bestD).2 = bestD) ∨
      (eligible s v (otkAux s v l best bestD).1 ∧
        (otkAux s v l best bestD).2 =
          centerDistSq (s.players v) (s.players (otkAux s v l best bestD).1)) := by
  induction l with
  | nil => intro best bestD; exact Or.inl ⟨rfl, rfl⟩
  | cons i rest ih =>
    intro best bestD
    simp only [otkAux]
    split_ifs with h1 h2
    · exact ih best bestD
    · rcases ih i (centerDistSq (s.players v) (s.players i)) with ⟨ha, hb⟩ | h
      · refine Or.inr ⟨?_, ?_⟩
        · rw [ha]
          unfold eligible
          refine ⟨fun hh => h1 (Or.inl hh), ?_, ?_⟩
          · rcases Bool.eq_false_or_eq_true (s.players i).active with ht | hf
            · exact ht
            · exact absurd (Or.inr (Or.inl hf)) h1
          · rcases Bool.eq_false_or_eq_true (s.players i).dead with ht | hf
            · exact absurd (Or.inr (Or.inr ht)) h1
            · exact hf
        · rw [hb, ha]
      · exact Or.inr h
    · exact ih best bestD

/-- `overtime_killer_for` returns a living opponent nearest to the victim
whenever some living opponent is within the `1.0e12` initialisation
distance. -/
theorem overtimeKillerFor_spec (s : CState) (v : Fin 4) (j0 : Fin 4)
    (hj0 : eligible s v j0)
    (hlt : centerDistSq (s.players v) (s.players j0) < BIG_DIST) :
    eligible s v (overtimeKillerFor s v) ∧
    ∀ j, eligible s v j →
      centerDistSq (s.players v) (s.players (overtimeKillerFor s v)) ≤
        centerDistSq (s.players v) (s.players j) := by
  have hmem : ∀ j : Fin 4, j ∈ allFour := by decide
  have hres := otkAux_min s v allFour v BIG_DIST j0 (hmem j0) hj0
  rcases otkAux_spec s v allFour v BIG_DIST with ⟨h1, h2⟩ | ⟨he, hd⟩
  · rw [h2] at hres
    exact absurd (lt_of_le_of_lt hres hlt) (lt_irrefl _)
  · refine ⟨he, fun j hj => ?_⟩
    have := otkAux_min s v allFour v BIG_DIST j (hmem j) hj
    rw [hd] at this
    exact this

/-- The killer's kill count is incremented by a non-self kill of a living
victim. -/
theorem killPlayer_kills_killer (s : CState) (v k : Fin 4) (hkv : ¬ k = v)
    (hv : (s.players v).dead = false) :
    ((killPlayer s v k).players k).kills = (s.players k).kills + 1 := by
  rw [killPlayer_players_apply]
  split_ifs <;> simp_all

/-- The victim's own kill count is unchanged by a non-self kill. -/
theorem killPlayer_kills_victim (s : CState) (v k : Fin 4) (hkv : ¬ k = v) :
    ((killPlayer s v k).players v).kills = (s.players v).kills := by
  rw [killPlayer_players_apply]
  split_ifs <;> simp_all

/-- The arena clamp leaves every other player's record untouched. -/
theorem clampPlayerX_players_other (s : CState) (i j : Fin 4) (h : ¬ j = i) :
    (clampPlayerX s i).players j = s.players j := by
  simp [clampPlayerX, Function.update_apply, h]

/-- C7: with overtime active, a player pressed against an arena bound
after the clamp dies on that same tick, and — given another living player
within the search's initialisation distance — the kill is credited to a
living opponent nearest the victim, never to the victim (whose own kill
count is unchanged). -/
theorem c7_overtime_wall (s : CState) (i : Fin 4)
    (_hact : (s.players i).active = true) (hdead : (s.players i).dead = false)
    (hov : s.game.overtime = true) (hwall : wallPressed s i)
    (j0 : Fin 4) (hj0 : eligible (clampPlayerX s i) i j0)
    (hclose : centerDistSq ((clampPlayerX s i).players i)
        ((clampPlayerX s i).players j0) < BIG_DIST) :
    boundsStep s i =
      killPlayer (clampPlayerX s i) i (overtimeKillerFor (clampPlayerX s i) i) ∧
    ((boundsStep s i).players i).dead = true ∧
    ¬ overtimeKillerFor (clampPlayerX s i) i = i ∧
    (s.players (overtimeKillerFor (clampPlayerX s i) i)).active = true ∧
    (s.players (overtimeKillerFor (clampPlayerX s i) i)).dead = false ∧
    ((boundsStep s i).players (overtimeKillerFor (clampPlayerX s i) i)).kills =
      (s.players (overtimeKillerFor (clampPlayerX s i) i)).kills + 1 ∧
    ((boundsStep s i).players i).kills = (s.players i).kills ∧
    (∀ j, eligible (clampPlayerX s i) i j →
      centerDistSq ((clampPlayerX s i).players i)
          ((clampPlayerX s i).players (overtimeKillerFor (clampPlayerX s i) i)) ≤
        centerDistSq ((clampPlayerX s i).players i) ((clampPlayerX s i).players j)) := by
  have hkill : boundsStep s i =
      killPlayer (clampPlayerX s i) i (overtimeKillerFor (clampPlayerX s i) i) := by
    unfold boundsStep
    rw [if_pos ⟨hov, hwall⟩]
  have hspec := overtimeKillerFor_spec (clampPlayerX s i) i j0 hj0 hclose
  have hel := hspec.1
  unfold eligible at hel
  obtain ⟨hki, hkact, hkdead⟩ := hel
  have hcd : ((clampPlayerX s i).players i).dead = false := by
    simpa [clampPlayerX, Function.update_apply] using hdead
  refine ⟨hkill, ?_, hki, ?_, ?_, ?_, ?_, hspec.2⟩
  · rw [hkill]
    exact killPlayer_dead_victim _ i _
  · rw [← clampPlayerX_players_other s i _ hki]
    exact hkact
  · rw [← clampPlayerX_players_other s i _ hki]
    exact hkdead
  · rw [hkill, killPlayer_kills_killer _ i _ hki hcd, clampPlayerX_players_other s i _ hki]
  · rw [hkill, killPlayer_kills_victim _ i _ hki]
    simp [clampPlayerX, Function.update_apply]

/-- C7 witness: overtime with the arena shrunk to `[-3, 3]`; player 0 at
`x = -5` is pressed against the left wall, dies, and the kill is credited
to player 1, the nearest (only) living opponent. -/
theorem c7_witness : ((boundsStep s7Ex 0).players 0).dead = true ∧
    ((boundsStep s7Ex 0).players (overtimeKillerFor (clampPlayerX s7Ex 0) 0)).kills =
      (s7Ex.players (overtimeKillerFor (clampPlayerX s7Ex 0) 0)).kills + 1 :=
  have h := c7_overtime_wall s7Ex 0 (by decide) (by decide) (by decide)
    (by norm_num [wallPressed, s7Ex, activeAt, basePlayer, baseGame, PLAYER_WIDTH])
    1 (by decide)
    (by norm_num [centerDistSq, playerCenter, clampPlayerX, Function.update_apply,
      s7Ex, activeAt, basePlayer, baseGame, PLAYER_WIDTH, PLAYER_HEIGHT, BIG_DIST,
      (by decide : ¬ (1 : Fin 4) = 0)])
  ⟨h.2.1, h.2.2.2.2.2.1⟩

end NeonDuel

namespace NeonDuel

/-! ## C10 — spawn invulnerability is not read by any kill path -/

/-- Projection of `setInv` on a player slot. -/
theorem setInv_players_apply (s : CState) (f : Fin 4 → ℕ) (i : Fin 4) :
    (setInv s f).players i = { s.players i with invuln_timer := f i } := rfl

/-- `setInv` does not touch the game state. -/
theorem setInv_game (s : CState) (f : Fin 4 → ℕ) : (setInv s f).game = s.game := rfl

/-- `setInv` does not touch the config. -/
theorem setInv_cfg (s : CState) (f : Fin 4 → ℕ) : (setInv s f).cfg = s.cfg := rfl

/-- Component-wise equality of combat states. -/
theorem CState.ext' (a b : CState) (hp : a.players = b.players) (hg : a.game = b.game)
    (hc : a.cfg = b.cfg) : a = b := by
  cases a; cases b; simp_all

/-- Overwriting the invulnerability timers twice keeps the last write. -/
theorem stripInv_setInv (s : CState) (g : Fin 4 → ℕ) : stripInv (setInv s g) = stripInv s := by
  unfold stripInv setInv
  exact CState.ext' _ _ rfl rfl rfl

/-- `kill_player` does not touch the config. -/
theorem killPlayer_cfg (s : CState) (v k : Fin 4) : (killPlayer s v k).cfg = s.cfg := by
  unfold killPlayer
  simp only [apply_ite CState.cfg, ite_self]

/-- `kill_player` commutes with overwriting the invulnerability timers: it
never reads them (it only zeroes the victim's). -/
theorem killPlayer_setInv (s : CState) (f : Fin 4 → ℕ) (v k : Fin 4) :
    killPlayer (setInv s f) v k =
      setInv (killPlayer s v k)
        (if (s.players v).dead = true then f else Function.update f v 0) := by
  by_cases hd : (s.players v).dead = true
  · rw [if_pos hd, killPlayer_noop _ _ _ (by simp [setInv_players_apply, hd]),
      killPlayer_noop _ _ _ hd]
  · rw [if_neg hd]
    refine CState.ext' _ _ ?_ ?_ ?_
    · funext i
      simp only [killPlayer_players_apply, setInv_players_apply]
      split_ifs <;> simp_all [Function.update_apply]
    · simp only [killPlayer_game, setInv_game, setInv_players_apply, setInv_cfg]
    · simp only [killPlayer_cfg, setInv_cfg]

/-- The deflection test ignores the invulnerability timer. -/
theorem deflectCond_setInv (p : MPlayer) (n : ℕ) (b : MBullet) :
    deflectCond { p with invuln_timer := n } b ↔ deflectCond p b := Iff.rfl

/-- The bullet/player scan commutes with overwriting the invulnerability
timers. -/
theorem scanHit_setInv (l : List (Fin 4)) : ∀ (s : CState) (f : Fin 4 → ℕ) (b : MBullet),
    ∃ g, scanHit (setInv s f) b l = (setInv (scanHit s b l).1 g, (scanHit s b l).2) := by
  induction l with
  | nil => intro s f b; exact ⟨f, rfl⟩
  | cons t rest ih =>
    intro s f b
    simp only [scanHit, setInv_players_apply, deflectCond_setInv]
    split_ifs with h1 h2 h3 h4
    · exact ih s f b
    · exact ih s f b
    · exact ih s f (deflect b t)
    · exact ⟨_, by rw [killPlayer_setInv]⟩
    · exact ih s f b

/-- The per-bullet update commutes with overwriting the invulnerability
timers. -/
theorem updateBullet_setInv (s : CState) (f : Fin 4 → ℕ) (pl : List MPlatform) (b : MBullet) :
    ∃ g, updateBullet (setInv s f) pl b =
      (setInv (updateBullet s pl b).1 g, (updateBullet s pl b).2) := by
  unfold updateBullet
  dsimp only
  split_ifs with h1 h2 h3 h4
  · exact ⟨f, rfl⟩
  · exact ⟨f, rfl⟩
  · exact ⟨f, rfl⟩
  · exact ⟨f, rfl⟩
  · exact scanHit_setInv allFour s f _

/-- `update_bullets` commutes with overwriting the invulnerability
timers: the resulting bullet pool is identical. -/
theorem updateBullets_setInv (bs : List MBullet) : ∀ (s : CState) (f : Fin 4 → ℕ)
    (pl : List MPlatform),
    ∃ g, updateBullets (setInv s f) pl bs =
      (setInv (updateBullets s pl bs).1 g, (updateBullets s pl bs).2) := by
  induction bs with
  | nil => intro s f pl; exact ⟨f, rfl⟩
  | cons b rest ih =>
    intro s f pl
    obtain ⟨g1, h1⟩ := updateBullet_setInv s f pl b
    obtain ⟨g2, h2⟩ := ih (updateBullet s pl b).1 g1 pl
    refine ⟨g2, ?_⟩
    simp only [updateBullets]
    rw [h1]
    simp only [h2]

/-- The melee target loop commutes with overwriting the invulnerability
timers. -/
theorem meleeTargets_setInv (l : List (Fin 4)) (ai : Fin 4) (mx my mw mh : ℚ) :
    ∀ (s : CState) (f : Fin 4 → ℕ),
    ∃ g, meleeTargets ai mx my mw mh (setInv s f) l =
      setInv (meleeTargets ai mx my mw mh s l) g := by
  induction l with
  | nil => intro s f; exact ⟨f, rfl⟩
  | cons t rest ih =>
    intro s f
    simp only [meleeTargets, setInv_players_apply]
    split_ifs with h1 h2 h3
    · exact ih s f
    · exact ih s f
    · obtain ⟨g1, h4⟩ := ih (killPlayer s t ai)
        (if (s.players t).dead = true then f else Function.update f t 0)
      exact ⟨g1, by rw [killPlayer_setInv, h4]⟩
    · exact ih s f

/-- `update_melee_hits` commutes with overwriting the invulnerability
timers. -/
theorem updateMeleeHits_setInv (l : List (Fin 4)) : ∀ (s : CState) (f : Fin 4 → ℕ),
    ∃ g, updateMeleeHits (setInv s f) l = setInv (updateMeleeHits s l) g := by
  induction l with
  | nil => intro s f; exact ⟨f, rfl⟩
  | cons a rest ih =>
    intro s f
    simp only [updateMeleeHits, setInv_players_apply]
    split_ifs with h1 h2
    · exact ih s f
    · obtain ⟨g1, hmt⟩ := meleeTargets_setInv allFour a ((s.players a).x + PLAYER_WIDTH)
        (s.players a).y MELEE_RANGE PLAYER_HEIGHT s f
      obtain ⟨g2, hrest⟩ := ih (meleeTargets a ((s.players a).x + PLAYER_WIDTH)
        (s.players a).y MELEE_RANGE PLAYER_HEIGHT s allFour) g1
      exact ⟨g2, by rw [hmt, hrest]⟩
    · obtain ⟨g1, hmt⟩ := meleeTargets_setInv allFour a ((s.players a).x - MELEE_RANGE)
        (s.players a).y MELEE_RANGE PLAYER_HEIGHT s f
      obtain ⟨g2, hrest⟩ := ih (meleeTargets a ((s.players a).x - MELEE_RANGE)
        (s.players a).y MELEE_RANGE PLAYER_HEIGHT s allFour) g1
      exact ⟨g2, by rw [hmt, hrest]⟩

/-- C10: spawn invulnerability is not enforced by combat — overwriting
every player's `invuln_timer` with arbitrary values changes nothing about
kill resolution, bullet hit detection (including the resulting bullet
pool), or melee hit resolution, up to the invulnerability timers
themselves (which kill resolution only zeroes on death). -/
theorem c10_invuln_not_read (s : CState) (f : Fin 4 → ℕ) (v k : Fin 4)
    (pl : List MPlatform) (bs : List MBullet) :
    stripInv (killPlayer (setInv s f) v k) = stripInv (killPlayer s v k) ∧
    stripInv ((updateBullets (setInv s f) pl bs).1) = stripInv ((updateBullets s pl bs).1) ∧
    (updateBullets (setInv s f) pl bs).2 = (updateBullets s pl bs).2 ∧
    stripInv (updateMeleeHits (setInv s f) allFour) = stripInv (updateMeleeHits s allFour) := by
  obtain ⟨g1, h1⟩ := updateBullets_setInv bs s f pl
  obtain ⟨g2, h2⟩ := updateMeleeHits_setInv allFour s f
  refine ⟨?_, ?_, ?_, ?_⟩
  · rw [killPlayer_setInv, stripInv_setInv]
  · rw [h1]
    simp only [stripInv_setInv]
  · rw [h1]
  · rw [h2, stripInv_setInv]

end NeonDuel
